import Mathlib

/-!
Verification development for simpleperf's `report-sample` command
(`cmd_report_sample.cpp`): the call-chain resolver with interpreter-frame
collapsing, the protobuf stream encoder, and the dump/validate decoder.

The embedding is shallow: each C++ routine relevant to the properties is
translated into an executable Lean definition over explicit state.  External
collaborators (the thread tree, the raw record reader) are modelled as inputs
carrying their responses, as the spec designates them external.
-/

namespace ReportSample

/-! ## Data model shared by encoder and resolver -/

/-- Dso type, as used by `entry.dso->type() == DSO_DEX_FILE` in
`ProcessSampleRecord`.  Only the DEX distinction is consulted by this file. -/
inductive DsoType
  | dexFile
  | elfFile
  | kernel
  | other
deriving DecidableEq, Repr

/-- The part of a `Dso` object this command reads: `Path()`, `FileName()`
and `type()`. -/
structure Dso where
  path : String
  fileName : String
  dsoType : DsoType
deriving DecidableEq, Repr

/-- The part of a `Symbol` this command reads: `Name()`, `DemangledName()`,
and whether it is the thread tree's `UnknownSymbol()` sentinel. -/
structure Symbol where
  name : String
  demangledName : String
  isUnknown : Bool
deriving DecidableEq, Repr

/-- `CallEntry` from `cmd_report_sample.cpp`: one resolved frame. -/
structure CallEntry where
  dso : Dso
  symbol : Symbol
  vaddr_in_file : Nat
deriving DecidableEq, Repr

/-! ## Protobuf record model (report_sample.proto as used here) -/

/-- One `Sample.CallChainEntry` message: `vaddr_in_file` (u64),
`file_id` (u32), `symbol_id` (i32, -1 = unresolved). -/
structure ChainEntryMsg where
  vaddr_in_file : Nat
  file_id : Nat
  symbol_id : Int
deriving DecidableEq, Repr

/-- One `Sample` message, the fields the dump path prints. -/
structure SampleMsg where
  event_type_id : Nat
  time : Nat
  event_count : Nat
  thread_id : Int
  callchain : List ChainEntryMsg
deriving DecidableEq, Repr

/-- One `LostSituation` message. -/
structure LostMsg where
  sample_count : Nat
  lost_count : Nat
deriving DecidableEq, Repr

/-- One `File` (file-table) message. -/
structure FileMsg where
  id : Nat
  path : String
  symbol : List String
  mangled_symbol : List String
deriving DecidableEq, Repr

/-- One `Thread` message. -/
structure ThreadMsg where
  thread_id : Nat
  process_id : Nat
  thread_name : String
deriving DecidableEq, Repr

/-- One `MetaInfo` message. -/
structure MetaInfoMsg where
  event_type : List String
  app_package_name : Option String
deriving DecidableEq, Repr

/-- `proto::Record`: a tagged union of exactly one record kind, the unit of
binary framing. -/
inductive ProtoRecord
  | sample (s : SampleMsg)
  | lost (l : LostMsg)
  | file (f : FileMsg)
  | thread (t : ThreadMsg)
  | metaInfo (m : MetaInfoMsg)
deriving DecidableEq, Repr

/-! ## DumpProtobufReport: the decoder/validator

`DumpProtobufReport` reads the framed stream record by record, prints each
record as indented text, and validates referential integrity: file-table ids
must be sequential at the record, and `(file_id, max symbol_id)` pairs
collected from sample callchains are bounds-checked after the full pass.

The framing layer (magic, version, 4-byte length prefixes, terminator) is
abstracted to a `List ProtoRecord`: the input is the record sequence of a
well-framed stream.  The text output is modelled as a list of `DumpLine`
tokens, one per `FprintIndented` call; each constructor fixes the printf
format and indentation of its line, so two outputs are byte-identical
exactly when their `DumpLine` lists are equal. -/

/-- One printed line of the dump, tagged by which `FprintIndented` call in
`DumpProtobufReport` produced it, carrying the formatted values. -/
inductive DumpLine
  | magic (s : String)
  | version (v : Nat)
  | sampleHeader (n : Nat)
  | eventTypeId (n : Nat)
  | time (t : Nat)
  | eventCount (n : Nat)
  | threadId (n : Int)
  | callchainHeader
  | vaddrInFile (v : Nat)
  | fileId (n : Nat)
  | symbolId (n : Int)
  | lostHeader
  | lostSampleCount (n : Nat)
  | lostLostCount (n : Nat)
  | fileHeader
  | fileIdLine (n : Nat)
  | filePath (p : String)
  | fileSymbol (s : String)
  | fileMangledSymbol (s : String)
  | threadHeader
  | threadThreadId (n : Nat)
  | threadProcessId (n : Nat)
  | threadNameLine (s : String)
  | metaInfoHeader
  | metaEventType (s : String)
  | appPackageName (s : String)
deriving DecidableEq, Repr

/-- `max_symbol_id_map[file_id] = std::max(max_symbol_id_map[file_id], sym)`:
`operator[]` default-inserts 0, then the maximum is stored.  The
`unordered_map` is modelled as an association list with unique keys. -/
def mapUpdateMax : List (Nat × Int) → Nat → Int → List (Nat × Int)
  | [], k, v => [(k, max 0 v)]
  | (k', v') :: rest, k, v =>
    if k' = k then (k', max v' v) :: rest else (k', v') :: mapUpdateMax rest k v

/-- Decoder state threaded through the record loop of `DumpProtobufReport`:
the printed output so far, the function-local `static size_t sample_count`,
the `max_symbol_id_map`, and `files` (where `files[file_id]` is that file's
declared symbol count). -/
structure DecCtx where
  out : List DumpLine
  sample_count : Nat
  max_symbol_id_map : List (Nat × Int)
  files : List Nat
deriving DecidableEq, Repr

/-- The callchain loop body of the sample branch: print the three lines of
one entry, reject `symbol_id < -1` as a fatal error, and record
`max_symbol_id_map[file_id] = max(..., symbol_id)` unless `symbol_id = -1`. -/
def chainEntryStep (ctx : DecCtx) (e : ChainEntryMsg) : Option DecCtx :=
  let out := ctx.out ++
    [DumpLine.vaddrInFile e.vaddr_in_file, DumpLine.fileId e.file_id,
     DumpLine.symbolId e.symbol_id]
  if e.symbol_id < -1 then
    none
  else if e.symbol_id = -1 then
    some { ctx with out := out }
  else
    let m := mapUpdateMax ctx.max_symbol_id_map e.file_id e.symbol_id
    some { ctx with out := out, max_symbol_id_map := m }

/-- Fold `chainEntryStep` over a callchain, stopping at the first error. -/
def chainFold (ctx : DecCtx) : List ChainEntryMsg → Option DecCtx
  | [] => some ctx
  | e :: rest =>
    match chainEntryStep ctx e with
    | none => none
    | some ctx' => chainFold ctx' rest

/-- Process one decoded `proto::Record`: print it and apply its validation.
`none` is the fatal-error return of `DumpProtobufReport`. -/
def dumpRecordStep (ctx : DecCtx) : ProtoRecord → Option DecCtx
  | ProtoRecord.sample s =>
    let out := ctx.out ++
      [DumpLine.sampleHeader (ctx.sample_count + 1),
       DumpLine.eventTypeId s.event_type_id, DumpLine.time s.time,
       DumpLine.eventCount s.event_count, DumpLine.threadId s.thread_id,
       DumpLine.callchainHeader]
    chainFold { ctx with sample_count := ctx.sample_count + 1, out := out } s.callchain
  | ProtoRecord.lost l =>
    let out := ctx.out ++
      [DumpLine.lostHeader, DumpLine.lostSampleCount l.sample_count,
       DumpLine.lostLostCount l.lost_count]
    some { ctx with out := out }
  | ProtoRecord.file f =>
    let out := ctx.out ++
      [DumpLine.fileHeader, DumpLine.fileIdLine f.id, DumpLine.filePath f.path]
      ++ f.symbol.map DumpLine.fileSymbol
      ++ f.mangled_symbol.map DumpLine.fileMangledSymbol
    if f.id ≠ ctx.files.length then
      none
    else
      some { ctx with out := out, files := ctx.files ++ [f.symbol.length] }
  | ProtoRecord.thread t =>
    let out := ctx.out ++
      [DumpLine.threadHeader, DumpLine.threadThreadId t.thread_id,
       DumpLine.threadProcessId t.process_id, DumpLine.threadNameLine t.thread_name]
    some { ctx with out := out }
  | ProtoRecord.metaInfo m =>
    let out := ctx.out ++
      [DumpLine.metaInfoHeader] ++ m.event_type.map DumpLine.metaEventType
      ++ (match m.app_package_name with
          | some s => [DumpLine.appPackageName s]
          | none => [])
    some { ctx with out := out }

/-- The record loop: process records until the terminator (end of list). -/
def runRecords (ctx : DecCtx) : List ProtoRecord → Option DecCtx
  | [] => some ctx
  | r :: rest =>
    match dumpRecordStep ctx r with
    | none => none
    | some ctx' => runRecords ctx' rest

/-- `static_cast<uint32_t>` of an `int32_t` value: two's-complement wrap. -/
def uint32OfInt32 (v : Int) : Nat := (v % 4294967296).toNat

/-- The post-pass check over `max_symbol_id_map`: every referenced file id is
below the declared file count and every max symbol id is below that file's
declared symbol count. -/
def postCheck (m : List (Nat × Int)) (files : List Nat) : Bool :=
  m.all fun p =>
    decide (p.1 < files.length) && decide (uint32OfInt32 p.2 < files.getD p.1 0)

/-- The decoder state `DumpProtobufReport` starts from: magic and version
already printed, tables empty, and the function-local static
`sample_count` at whatever value `sc0` the previous call in this process
left behind (0 for the first call). -/
def initCtx (sc0 : Nat) : DecCtx :=
  { out := [DumpLine.magic "SIMPLEPERF", DumpLine.version 1],
    sample_count := sc0, max_symbol_id_map := [], files := [] }

/-- The record loop's final state on a stream, if no record failed. -/
def decodedCtx (records : List ProtoRecord) (sc0 : Nat) : Option DecCtx :=
  runRecords (initCtx sc0) records

/-- `DumpProtobufReport` on a well-framed stream: print magic and version,
run the record loop, then the deferred bounds check.  Besides the text
output it returns the final value of the function-local static
`sample_count`, which persists into the next call in the same process. -/
def dumpProtobufReport (records : List ProtoRecord) (sc0 : Nat) :
    Option (List DumpLine × Nat) :=
  match decodedCtx records sc0 with
  | none => none
  | some ctx =>
    if postCheck ctx.max_symbol_id_map ctx.files then
      some (ctx.out, ctx.sample_count)
    else
      none

/-- The declared id of a file-table record, none for other record kinds. -/
def fileIdOf : ProtoRecord → Option Nat
  | ProtoRecord.file f => some f.id
  | _ => none

/-- The file ids declared by the stream's file-table records, in record
order. -/
def fileRecordIds (records : List ProtoRecord) : List Nat :=
  records.filterMap fileIdOf

/-- Whether a record is a sample record. -/
def isSampleRec : ProtoRecord → Bool
  | ProtoRecord.sample _ => true
  | _ => false

/-- Number of sample records in a stream. -/
def sampleRecordCount (records : List ProtoRecord) : Nat :=
  (records.filter isSampleRec).length

/-- Running `DumpProtobufReport` twice in one process on the same stream:
the second call starts from the static `sample_count` the first call left
behind.  Returns both text outputs when both dumps succeed. -/
def dumpTwiceOutputs (records : List ProtoRecord) :
    Option (List DumpLine × List DumpLine) :=
  match dumpProtobufReport records 0 with
  | none => none
  | some (o1, sc1) =>
    match dumpProtobufReport records sc1 with
    | none => none
    | some (o2, _) => some (o1, o2)

/-! ## ProcessSampleRecord: the call-chain resolver

`ProcessSampleRecord` walks the raw callchain, resolves each instruction
pointer through `GetCallEntry` (stopping at the first unknown-dso frame past
index 0), collapses ART interpreter frames around DEX frames unless
`--show-art-frames` was given, and hands the entries to the protobuf or text
printer.

The thread tree is an external collaborator; a `Frame` carries its responses
for one instruction pointer: whether `thread_tree_.IsUnknownDso(map->dso)`
holds for the map found, and the `CallEntry` that `GetCallEntry` would fill
in (after its unknown-symbol dso adjustment). -/

/-- One raw callchain slot together with the thread tree's responses for it. -/
structure Frame where
  ip : Nat
  mapDsoUnknown : Bool
  entry : CallEntry
deriving DecidableEq, Repr

/-- The option/metadata state the resolver consults. -/
structure ResolverPolicy where
  remove_unknown_kernel_symbols : Bool
  kernel_symbols_available : Bool
  show_callchain : Bool
  show_art_frames : Bool
deriving DecidableEq, Repr

/-- `android::base::EndsWith` (helper from libbase, external to this
repository): byte-suffix test. -/
def baseEndsWith (s suf : String) : Bool :=
  List.isSuffixOf suf.toList s.toList

/-- `is_entry_for_interpreter` from `ProcessSampleRecord`: the entry's dso
path ends with `/libart.so`. -/
def is_entry_for_interpreter (entry : CallEntry) : Bool :=
  baseEndsWith entry.dso.path "/libart.so"

/-- `entry.dso->type() == DSO_DEX_FILE`. -/
def isDexEntry (entry : CallEntry) : Bool :=
  entry.dso.dsoType = DsoType.dexFile

/-- `GetCallEntry`: fails exactly when `omit_unknown_dso` is set and the map
found for the ip has an unknown dso; otherwise yields the resolved entry. -/
def getCallEntry (omit_unknown_dso : Bool) (f : Frame) : Option CallEntry :=
  if omit_unknown_dso && f.mapDsoUnknown then none else some f.entry

/-- The interpreter-collapsing body of the resolver loop, acting on the
accumulated entries (kept in reverse, so the C++ `entries.back()` is the
head) and the `near_java_method` flag, ending with the `push_back`. -/
def collapseStep (show_art_frames : Bool) (st : List CallEntry × Bool)
    (entry : CallEntry) : List CallEntry × Bool :=
  if show_art_frames then
    (entry :: st.1, st.2)
  else if isDexEntry entry then
    (entry :: st.1.dropWhile is_entry_for_interpreter, true)
  else if is_entry_for_interpreter entry then
    if st.2 then st else (entry :: st.1, st.2)
  else
    (entry :: st.1, false)

/-- The resolver loop of `ProcessSampleRecord`: `omit` is `i > 0`, a failed
`GetCallEntry` breaks out of the loop. -/
def resolveFrames (show_art_frames : Bool) :
    List Frame → Bool → List CallEntry × Bool → List CallEntry × Bool
  | [], _, st => st
  | f :: rest, omitDso, st =>
    match getCallEntry omitDso f with
    | none => st
    | some entry =>
      resolveFrames show_art_frames rest true (collapseStep show_art_frames st entry)

/-- The entry list `ProcessSampleRecord` accumulates for a callchain, in
output order. -/
def resolveCallChain (show_art_frames : Bool) (frames : List Frame) :
    List CallEntry :=
  (resolveFrames show_art_frames frames false ([], false)).1.reverse

/-- What one `ProcessSampleRecord` call does, observably: whether a report
record is emitted (and with which entries) and how much `sample_count_` is
incremented.  The call itself returns true on all these paths. -/
structure ProcessResult where
  emitted : Option (List CallEntry)
  sampleCountInc : Nat
deriving DecidableEq, Repr

/-- The kernel-frame-removal prologue of `ProcessSampleRecord`: when the
policy applies, erase the `kernel_ip_count` leading chain slots and zero
the count.  `kernel_ip_count` is the leading-kernel count `GetCallChain`
reported; `frames` are the chain's slots with their resolutions. -/
def chainAfterRemoval (pol : ResolverPolicy) (kernel_ip_count : Nat)
    (frames : List Frame) : List Frame × Nat :=
  if kernel_ip_count > 0 && pol.remove_unknown_kernel_symbols
      && !pol.kernel_symbols_available then
    (frames.drop kernel_ip_count, 0)
  else
    (frames, kernel_ip_count)

/-- `ProcessSampleRecord` up to the printer call, continued: empty-chain
early return, `--show-callchain` truncation, then the resolver loop. -/
def processSampleRecord (pol : ResolverPolicy) (kernel_ip_count : Nat)
    (frames : List Frame) : ProcessResult :=
  let st := chainAfterRemoval pol kernel_ip_count frames
  if st.1.isEmpty then
    { emitted := none, sampleCountInc := 0 }
  else
    let ips := if !pol.show_callchain then st.1.take 1 else st.1
    { emitted := some (resolveCallChain pol.show_art_frames ips),
      sampleCountInc := 1 }

/-! ## PrintSampleRecordInProtobuf: sample emission with id allocation

`PrintSampleRecordInProtobuf` lazily assigns dump ids: `GetDumpId` looks an
id up, `CreateDumpId` allocates the next sequential one on first reference;
symbol dump ids are scoped per dso.  After writing each callchain entry the
loop breaks once the entry is `__libc_init` or `__start_thread` in
`libc.so`. -/

/-- Id-allocation state: dso paths with a dump id, in allocation order (the
id is the index), and per dso path the symbol names with a dump id, in
allocation order. -/
structure EncState where
  fileTbl : List String
  symTbl : List (String × List String)
deriving DecidableEq, Repr

/-- `GetDumpId` + `CreateDumpId` on a dso path: the existing id, or the next
sequential id, allocating it. -/
def fileDumpId (st : EncState) (path : String) : Nat × EncState :=
  match st.fileTbl.findIdx? (· = path) with
  | some i => (i, st)
  | none => (st.fileTbl.length, { st with fileTbl := st.fileTbl ++ [path] })

/-- Look up the symbol list allocated so far for a dso path. -/
def symsOf (tbl : List (String × List String)) (path : String) : List String :=
  match tbl.find? (fun p => p.1 = path) with
  | some p => p.2
  | none => []

/-- Replace the symbol list recorded for a dso path. -/
def setSyms (tbl : List (String × List String)) (path : String)
    (syms : List String) : List (String × List String) :=
  match tbl with
  | [] => [(path, syms)]
  | p :: rest =>
    if p.1 = path then (path, syms) :: rest else p :: setSyms rest path syms

/-- `Symbol::GetDumpId` + `Dso::CreateSymbolDumpId` for a symbol of a dso. -/
def symbolDumpId (st : EncState) (path : String) (symName : String) :
    Nat × EncState :=
  let syms := symsOf st.symTbl path
  match syms.findIdx? (· = symName) with
  | some i => (i, st)
  | none =>
    (syms.length, { st with symTbl := setSyms st.symTbl path (syms ++ [symName]) })

/-- The per-entry break condition: the callchain end at `__libc_init` or
`__start_thread` in `libc.so`. -/
def isChainEnd (node : CallEntry) : Bool :=
  node.dso.fileName = "libc.so" &&
    (node.symbol.name = "__libc_init" || node.symbol.name = "__start_thread")

/-- The callchain loop of `PrintSampleRecordInProtobuf`: allocate ids, build
the `CallChainEntry` messages, break after a chain-end entry. -/
def encodeChain (st : EncState) : List CallEntry → EncState × List ChainEntryMsg
  | [] => (st, [])
  | node :: rest =>
    let fid := fileDumpId st node.dso.path
    let sid :=
      if node.symbol.isUnknown then
        ((-1 : Int), fid.2)
      else
        let s := symbolDumpId fid.2 node.dso.path node.symbol.name
        ((s.1 : Int), s.2)
    let msg : ChainEntryMsg :=
      { vaddr_in_file := node.vaddr_in_file, file_id := fid.1,
        symbol_id := sid.1 }
    if isChainEnd node then
      (sid.2, [msg])
    else
      let r := encodeChain sid.2 rest
      (r.1, msg :: r.2)

/-- The entries whose messages the protobuf path writes: the resolved chain
cut after the first chain-end entry. -/
def protobufChainEntries : List CallEntry → List CallEntry
  | [] => []
  | node :: rest =>
    if isChainEnd node then [node] else node :: protobufChainEntries rest

/-- The entries the text path (`PrintSampleRecord`) prints: `entries[0]` as
the sample's own location, then every remaining entry under `callchain:`;
no cut is applied. -/
def textChainEntries (entries : List CallEntry) : List CallEntry :=
  entries

/-- `ProcessSampleRecord` in protobuf mode, including the id allocation its
printer performs: the final allocation state, the emitted callchain
messages (if a record is emitted at all), and the `sample_count_`
increment. -/
def processSampleRecordPB (pol : ResolverPolicy) (st : EncState)
    (kernel_ip_count : Nat) (frames : List Frame) :
    EncState × Option (List ChainEntryMsg) × Nat :=
  let r := processSampleRecord pol kernel_ip_count frames
  match r.emitted with
  | none => (st, none, r.sampleCountInc)
  | some entries =>
    let (st', msgs) := encodeChain st entries
    (st', some msgs, r.sampleCountInc)

/-! ## The spec's wording of interpreter collapsing

For the refinement claim about collapsing, a second machine is written from
the spec's words (§4.1 step 5) over output-ordered entry lists, to be
compared with `collapseStep`, which mirrors the loop body of
`ProcessSampleRecord`. -/

/-- Remove the interpreter frames standing immediately before the end of an
accumulated output (its maximal interpreter suffix). -/
def removeTrailingInterp (l : List CallEntry) : List CallEntry :=
  (l.reverse.dropWhile is_entry_for_interpreter).reverse

/-- The spec's collapsing state machine, per its own words: on an
interpreted-code (DEX) frame, discard all immediately preceding interpreter
frames already accumulated, append the frame, and raise the
near-interpreted-code flag; while the flag is set, skip interpreter frames;
any frame that is neither interpreter nor interpreted-code is appended and
clears the flag.  State: (accumulated output in order, flag). -/
def collapseSpecStep (st : List CallEntry × Bool) (entry : CallEntry) :
    List CallEntry × Bool :=
  if isDexEntry entry then
    (removeTrailingInterp st.1 ++ [entry], true)
  else if is_entry_for_interpreter entry then
    if st.2 then st else (st.1 ++ [entry], st.2)
  else
    (st.1 ++ [entry], false)

/-- The resolver's collapsing fold (collapsing enabled), on already-resolved
entries, read off in output order. -/
def collapseRun (es : List CallEntry) : List CallEntry :=
  (es.foldl (collapseStep false) ([], false)).1.reverse

/-- The spec machine's fold on the same entries. -/
def collapseSpecRun (es : List CallEntry) : List CallEntry :=
  (es.foldl collapseSpecStep ([], false)).1

/-! ## Concrete data for the claims' examples -/

/-- The ART interpreter dso: its path ends in `/libart.so`. -/
def artDso : Dso :=
  { path := "/apex/com.android.art/lib64/libart.so", fileName := "libart.so",
    dsoType := DsoType.elfFile }

/-- A DEX (interpreted-code) dso. -/
def dexDso : Dso :=
  { path := "/system/framework/framework.jar", fileName := "framework.jar",
    dsoType := DsoType.dexFile }

/-- A plain native dso. -/
def libcDso : Dso :=
  { path := "/system/lib64/libc.so", fileName := "libc.so",
    dsoType := DsoType.elfFile }

def mainSym : Symbol :=
  { name := "main", demangledName := "main", isUnknown := false }

def libcInitSym : Symbol :=
  { name := "__libc_init", demangledName := "__libc_init", isUnknown := false }

def interpEntry : CallEntry := { dso := artDso, symbol := mainSym, vaddr_in_file := 16 }

def dexEntry : CallEntry := { dso := dexDso, symbol := mainSym, vaddr_in_file := 32 }

def nativeEntry : CallEntry := { dso := libcDso, symbol := mainSym, vaddr_in_file := 48 }

/-- A `__libc_init` entry in `libc.so`: the protobuf chain-end marker. -/
def chainEndEntry : CallEntry := { dso := libcDso, symbol := libcInitSym, vaddr_in_file := 64 }

/-- A kernel-space entry, for chains with leading kernel frames. -/
def kernelEntry : CallEntry :=
  { dso := { path := "[kernel.kallsyms]", fileName := "[kernel.kallsyms]",
             dsoType := DsoType.kernel },
    symbol := mainSym, vaddr_in_file := 80 }

/-- A frame whose map dso is known, resolving to the given entry. -/
def knownFrame (e : CallEntry) : Frame :=
  { ip := e.vaddr_in_file, mapDsoUnknown := false, entry := e }

/-- A frame whose map dso is the unknown dso. -/
def unknownDsoFrame : Frame :=
  { ip := 4096, mapDsoUnknown := true, entry := nativeEntry }

/-- An option state with `--remove-unknown-kernel-symbols` given, kernel
symbols unavailable in the recording, `--show-callchain` given and
`--show-art-frames` not given. -/
def removePolicy : ResolverPolicy :=
  { remove_unknown_kernel_symbols := true, kernel_symbols_available := false,
    show_callchain := true, show_art_frames := false }

/-- An option state with full callchains and no kernel-frame removal. -/
def fullChainPolicy : ResolverPolicy :=
  { remove_unknown_kernel_symbols := false, kernel_symbols_available := true,
    show_callchain := true, show_art_frames := false }

/-- An id-allocation state with nothing allocated yet. -/
def emptyEnc : EncState := { fileTbl := [], symTbl := [] }

/-- The claim's six-frame chain: interp, interp, managed, interp, interp,
native, all with known dsos. -/
def c1Frames : List Frame :=
  [knownFrame interpEntry, knownFrame interpEntry, knownFrame dexEntry,
   knownFrame interpEntry, knownFrame interpEntry, knownFrame nativeEntry]

/-- A file-table record declaring the given id and symbol names. -/
def mkFileRec (i : Nat) (syms : List String) : ProtoRecord :=
  ProtoRecord.file { id := i, path := "/system/lib64/libc.so",
                     symbol := syms, mangled_symbol := syms }

/-- A sample record with a single callchain entry referencing the given file
and symbol ids. -/
def mkSampleRec (fid : Nat) (sid : Int) : ProtoRecord :=
  ProtoRecord.sample { event_type_id := 0, time := 1000, event_count := 1,
                       thread_id := 1,
                       callchain := [{ vaddr_in_file := 4096, file_id := fid,
                                       symbol_id := sid }] }

/-- A stream whose file ids run 0, 1 in order. -/
def c2GoodStream : List ProtoRecord := [mkFileRec 0 [], mkFileRec 1 ["a"]]

/-- A stream whose first file record declares id 1 instead of 0. -/
def c2BadStream : List ProtoRecord := [mkFileRec 1 []]

/-- A stream whose sample references symbol id 1 of a file declaring exactly
one symbol: the referenced id equals the symbol count. -/
def c3RejectStream : List ProtoRecord := [mkFileRec 0 ["a"], mkSampleRec 0 1]

/-- A stream whose sample references file 0, symbol 0 before the file table
declaring that file appears. -/
def c3ForwardStream : List ProtoRecord := [mkSampleRec 0 0, mkFileRec 0 ["a"]]

/-- A valid stream holding one sample record. -/
def c4Stream : List ProtoRecord := [mkSampleRec 0 (-1), mkFileRec 0 []]

/-- A valid stream holding no sample record. -/
def c4NoSampleStream : List ProtoRecord :=
  [ProtoRecord.metaInfo { event_type := ["cpu-cycles"], app_package_name := none },
   ProtoRecord.lost { sample_count := 0, lost_count := 0 },
   mkFileRec 0 [],
   ProtoRecord.thread { thread_id := 1, process_id := 1, thread_name := "t" }]

/-- A stream whose only reference to the out-of-range file id 5 carries
symbol id -1. -/
def c10Stream : List ProtoRecord := [mkSampleRec 5 (-1), mkFileRec 0 []]

/-! # Theorems -/

/-! ## Resolver lemmas -/

theorem collapseStep_spec_step (st : List CallEntry × Bool) (e : CallEntry) :
    ((collapseStep false st e).1.reverse, (collapseStep false st e).2) =
      collapseSpecStep (st.1.reverse, st.2) e := by
  obtain ⟨l, b⟩ := st
  by_cases hd : isDexEntry e
  · simp [collapseStep, collapseSpecStep, removeTrailingInterp, hd,
          List.reverse_reverse]
  · by_cases hi : is_entry_for_interpreter e
    · by_cases hb : b <;>
        simp [collapseStep, collapseSpecStep, hd, hi, hb, List.reverse_cons]
    · simp [collapseStep, collapseSpecStep, hd, hi, List.reverse_cons]

theorem foldl_collapse_spec (es : List CallEntry) :
    ∀ st : List CallEntry × Bool,
      ((es.foldl (collapseStep false) st).1.reverse,
        (es.foldl (collapseStep false) st).2) =
        es.foldl collapseSpecStep (st.1.reverse, st.2) := by
  induction es with
  | nil => intro st; simp
  | cons e rest ih =>
    intro st
    simp only [List.foldl_cons]
    rw [ih (collapseStep false st e), collapseStep_spec_step]

theorem resolveFrames_cons_first (sa : Bool) (f : Frame) (rest : List Frame)
    (st : List CallEntry × Bool) :
    resolveFrames sa (f :: rest) false st =
      resolveFrames sa rest true (collapseStep sa st f.entry) := by
  simp [resolveFrames, getCallEntry]

theorem resolveFrames_known_prefix (sa : Bool) (fs : List Frame) :
    ∀ st, resolveFrames sa fs true st =
      List.foldl (collapseStep sa) st
        ((fs.takeWhile fun g => !g.mapDsoUnknown).map Frame.entry) := by
  induction fs with
  | nil => intro st; simp [resolveFrames]
  | cons f rest ih =>
    intro st
    by_cases h : f.mapDsoUnknown
    · simp [resolveFrames, getCallEntry, h, List.takeWhile_cons]
    · simp [resolveFrames, getCallEntry, h, List.takeWhile_cons, ih]

theorem collapseStep_ne_nil (sa : Bool) (st : List CallEntry × Bool)
    (e : CallEntry) (h : st.1 ≠ []) : (collapseStep sa st e).1 ≠ [] := by
  obtain ⟨l, b⟩ := st
  by_cases hsa : sa <;> by_cases hd : isDexEntry e <;>
    by_cases hi : is_entry_for_interpreter e <;> by_cases hb : b <;>
      simp_all [collapseStep]

theorem collapseStep_flag_false_ne_nil (sa : Bool) (l : List CallEntry)
    (e : CallEntry) : (collapseStep sa (l, false) e).1 ≠ [] := by
  by_cases hsa : sa <;> by_cases hd : isDexEntry e <;>
    by_cases hi : is_entry_for_interpreter e <;> simp_all [collapseStep]

theorem resolveFrames_ne_nil (sa : Bool) (fs : List Frame) :
    ∀ (omitDso : Bool) (st : List CallEntry × Bool), st.1 ≠ [] →
      (resolveFrames sa fs omitDso st).1 ≠ [] := by
  induction fs with
  | nil => intro _ st h; simpa [resolveFrames] using h
  | cons f rest ih =>
    intro omitDso st h
    by_cases hg : omitDso && f.mapDsoUnknown
    · simpa [resolveFrames, getCallEntry, hg] using h
    · simp only [resolveFrames, getCallEntry, hg, if_false, Bool.false_eq_true]
      exact ih true _ (collapseStep_ne_nil sa st f.entry h)

theorem resolveCallChain_cons_ne_nil (sa : Bool) (f : Frame)
    (rest : List Frame) : resolveCallChain sa (f :: rest) ≠ [] := by
  unfold resolveCallChain
  rw [resolveFrames_cons_first]
  intro hcon
  have h1 : (resolveFrames sa rest true (collapseStep sa ([], false) f.entry)).1 ≠ [] :=
    resolveFrames_ne_nil sa rest true _ (collapseStep_flag_false_ne_nil sa [] f.entry)
  exact h1 (by simpa using congrArg List.reverse hcon)

/-! ## Claim theorems about the resolver -/

/-- C1: with interpreter collapsing enabled (show-art-frames off) the
resolver's fold behaves as the spec's state machine: a DEX frame discards
the interpreter frames immediately preceding it in the accumulated output
and raises the near-interpreted-code flag, interpreter frames are skipped
while the flag is set, and any other frame clears it.  In particular
[interp, interp, managed, interp, interp, native] yields [managed, native]
with collapsing enabled and all six frames with collapsing disabled. -/
theorem C1_interpreter_collapse :
    (∀ es : List CallEntry, collapseRun es = collapseSpecRun es) ∧
      resolveCallChain false c1Frames = [dexEntry, nativeEntry] ∧
      resolveCallChain true c1Frames =
        [interpEntry, interpEntry, dexEntry, interpEntry, interpEntry,
         nativeEntry] := by
  refine ⟨fun es => ?_, by decide, by decide⟩
  have h := congrArg Prod.fst (foldl_collapse_spec es ([], false))
  simpa [collapseRun, collapseSpecRun] using h

/-- C5: for a non-empty chain, the frames the resolver processes are the
first frame (its map dso unknown or not) followed by the entries of the
longest unknown-dso-free prefix of the remaining frames: a later frame with
unknown dso is dropped and resolution stops there.  In particular
[A(known), B(unknown-file)] yields exactly [A]. -/
theorem C5_truncate_at_unknown_dso :
    (∀ (sa : Bool) (f : Frame) (rest : List Frame),
        resolveCallChain sa (f :: rest) =
          (List.foldl (collapseStep sa) ([], false)
            (f.entry ::
              (rest.takeWhile fun g => !g.mapDsoUnknown).map Frame.entry)).1.reverse) ∧
      resolveCallChain false [knownFrame nativeEntry, unknownDsoFrame] =
        [nativeEntry] := by
  refine ⟨fun sa f rest => ?_, by decide⟩
  simp [resolveCallChain, resolveFrames_cons_first, resolveFrames_known_prefix,
        List.foldl_cons]

/-- C8: when the chain is non-empty after kernel-frame removal, the
resolver emits a report with a non-empty entry list, so the text path's
`CHECK(!entries.empty())` cannot fire. -/
theorem C8_entries_nonempty (pol : ResolverPolicy) (kc : Nat)
    (frames : List Frame)
    (h : (chainAfterRemoval pol kc frames).1 ≠ []) :
    ∃ es, (processSampleRecord pol kc frames).emitted = some es ∧ es ≠ [] := by
  rcases hfl : (chainAfterRemoval pol kc frames).1 with _ | ⟨f, rest⟩
  · exact absurd hfl h
  · have hne := resolveCallChain_cons_ne_nil pol.show_art_frames
    by_cases hsc : pol.show_callchain
    · exact ⟨resolveCallChain pol.show_art_frames (f :: rest),
        by simp [processSampleRecord, hfl, hsc], hne f rest⟩
    · exact ⟨resolveCallChain pol.show_art_frames [f],
        by simp [processSampleRecord, hfl, hsc], hne f []⟩

/-- C8, witnessed: a one-frame user chain under the full-chain policy. -/
theorem C8_entries_nonempty_witness :
    (chainAfterRemoval fullChainPolicy 0 [knownFrame nativeEntry]).1 ≠ [] ∧
      ∃ es, (processSampleRecord fullChainPolicy 0
          [knownFrame nativeEntry]).emitted = some es ∧ es ≠ [] :=
  ⟨by decide, C8_entries_nonempty fullChainPolicy 0 [knownFrame nativeEntry]
    (by decide)⟩

/-- C6: with the removal policy on and kernel symbols unavailable, a chain
with leading kernel frames is processed exactly as the user-frame remainder
with kernel-frame count 0 — before any resolution, emission or id
allocation.  In particular 2 kernel + 3 user frames yield exactly the 3
user entries. -/
theorem C6_kernel_frame_removal :
    (∀ (pol : ResolverPolicy) (st : EncState) (kIps uIps : List Frame),
        pol.remove_unknown_kernel_symbols = true →
        pol.kernel_symbols_available = false →
        kIps ≠ [] →
        processSampleRecordPB pol st kIps.length (kIps ++ uIps) =
          processSampleRecordPB pol st 0 uIps) ∧
      (processSampleRecord removePolicy 2
          [knownFrame kernelEntry, knownFrame kernelEntry,
           knownFrame nativeEntry, knownFrame nativeEntry,
           knownFrame nativeEntry]).emitted =
        some [nativeEntry, nativeEntry, nativeEntry] := by
  refine ⟨?_, by decide⟩
  intro pol st kIps uIps hr hk hne
  have hgt : 0 < kIps.length := List.length_pos.mpr hne
  unfold processSampleRecordPB processSampleRecord chainAfterRemoval
  simp [hr, hk, hgt, List.drop_left]

/-- C6, witnessed at the claim's 2-kernel + 3-user chain. -/
theorem C6_kernel_frame_removal_witness :
    processSampleRecordPB removePolicy emptyEnc
        ([knownFrame kernelEntry, knownFrame kernelEntry]).length
        ([knownFrame kernelEntry, knownFrame kernelEntry] ++
          [knownFrame nativeEntry, knownFrame nativeEntry,
           knownFrame nativeEntry]) =
      processSampleRecordPB removePolicy emptyEnc 0
        [knownFrame nativeEntry, knownFrame nativeEntry,
         knownFrame nativeEntry] :=
  C6_kernel_frame_removal.1 removePolicy emptyEnc
    [knownFrame kernelEntry, knownFrame kernelEntry]
    [knownFrame nativeEntry, knownFrame nativeEntry, knownFrame nativeEntry]
    (by decide) (by decide) (by decide)

/-- C7: a sample whose chain is empty after kernel-frame removal succeeds
without emitting any record, without incrementing the sample counter and
without allocating any file or symbol dump id. -/
theorem C7_empty_chain_no_record (pol : ResolverPolicy) (st : EncState)
    (kc : Nat) (frames : List Frame)
    (h : (chainAfterRemoval pol kc frames).1 = []) :
    processSampleRecordPB pol st kc frames = (st, none, 0) := by
  unfold processSampleRecordPB processSampleRecord
  simp [h]

/-- C7, witnessed: an all-kernel chain removed entirely. -/
theorem C7_empty_chain_no_record_witness :
    (chainAfterRemoval removePolicy 1 [knownFrame kernelEntry]).1 = [] ∧
      processSampleRecordPB removePolicy emptyEnc 1 [knownFrame kernelEntry] =
        (emptyEnc, none, 0) :=
  ⟨by decide, C7_empty_chain_no_record removePolicy emptyEnc 1
    [knownFrame kernelEntry] (by decide)⟩

/-- C9: the protobuf printer stops writing callchain entries right after an
entry for `__libc_init`/`__start_thread` in `libc.so` (that entry is still
written, the resolved remainder is not), while the text printer prints the
whole entry list; on the chain [native, libc-init, native] the protobuf
output has 2 entries and the text output 3. -/
theorem C9_protobuf_chain_cut :
    (∀ (e : CallEntry) (post pre : List CallEntry) (st : EncState),
        (∀ x ∈ pre, isChainEnd x = false) → isChainEnd e = true →
        encodeChain st (pre ++ e :: post) = encodeChain st (pre ++ [e])) ∧
      (∀ entries : List CallEntry, textChainEntries entries = entries) ∧
      (encodeChain emptyEnc
          [nativeEntry, chainEndEntry, nativeEntry]).2.length = 2 ∧
      (textChainEntries [nativeEntry, chainEndEntry, nativeEntry]).length = 3 := by
  refine ⟨?_, fun _ => rfl, by decide, by decide⟩
  intro e post pre
  induction pre with
  | nil => intro st _ he; simp [encodeChain, he]
  | cons p pre ih =>
    intro st hpre he
    have hp : isChainEnd p = false := hpre p (List.mem_cons_self p pre)
    simp only [List.cons_append, encodeChain, hp, Bool.false_eq_true, if_false,
               List.append_eq]
    rw [ih _ (fun x hx => hpre x (List.mem_cons_of_mem p hx)) he]

/-- C9, witnessed on the concrete cut chain. -/
theorem C9_protobuf_chain_cut_witness :
    encodeChain emptyEnc ([nativeEntry] ++ chainEndEntry :: [nativeEntry]) =
      encodeChain emptyEnc ([nativeEntry] ++ [chainEndEntry]) :=
  C9_protobuf_chain_cut.1 chainEndEntry [nativeEntry] [nativeEntry] emptyEnc
    (by decide) (by decide)

/-! ## Decoder lemmas -/

theorem chainEntryStep_preserves (ctx ctx' : DecCtx) (e : ChainEntryMsg)
    (h : chainEntryStep ctx e = some ctx') :
    ctx'.files = ctx.files ∧ ctx'.sample_count = ctx.sample_count := by
  unfold chainEntryStep at h
  split at h
  · exact Option.noConfusion h
  · split at h <;>
      (simp only [Option.some.injEq] at h; subst h; exact ⟨rfl, rfl⟩)

theorem chainFold_preserves (ch : List ChainEntryMsg) :
    ∀ ctx ctx', chainFold ctx ch = some ctx' →
      ctx'.files = ctx.files ∧ ctx'.sample_count = ctx.sample_count := by
  induction ch with
  | nil =>
    intro ctx ctx' h
    simp only [chainFold, Option.some.injEq] at h
    subst h; exact ⟨rfl, rfl⟩
  | cons e rest ih =>
    intro ctx ctx' h
    unfold chainFold at h
    cases heq : chainEntryStep ctx e with
    | none => rw [heq] at h; exact Option.noConfusion h
    | some cm =>
      rw [heq] at h
      obtain ⟨h1, h2⟩ := chainEntryStep_preserves ctx cm e heq
      obtain ⟨h3, h4⟩ := ih cm ctx' h
      exact ⟨h3.trans h1, h4.trans h2⟩

theorem dumpRecordStep_file (ctx ctx' : DecCtx) (f : FileMsg)
    (h : dumpRecordStep ctx (ProtoRecord.file f) = some ctx') :
    f.id = ctx.files.length ∧ ctx'.files = ctx.files ++ [f.symbol.length] := by
  simp only [dumpRecordStep] at h
  split at h
  · exact Option.noConfusion h
  · rename_i hid
    simp only [Option.some.injEq] at h
    subst h
    exact ⟨Decidable.not_not.mp hid, rfl⟩

theorem dumpRecordStep_nonfile_files (ctx ctx' : DecCtx) (r : ProtoRecord)
    (h : dumpRecordStep ctx r = some ctx') (hnf : fileIdOf r = none) :
    ctx'.files = ctx.files := by
  cases r with
  | sample s => exact (chainFold_preserves s.callchain _ ctx' h).1
  | lost l =>
    simp only [dumpRecordStep, Option.some.injEq] at h; subst h; rfl
  | file f => exact Option.noConfusion hnf
  | thread t =>
    simp only [dumpRecordStep, Option.some.injEq] at h; subst h; rfl
  | metaInfo m =>
    simp only [dumpRecordStep, Option.some.injEq] at h; subst h; rfl

theorem dumpRecordStep_count (ctx ctx' : DecCtx) (r : ProtoRecord)
    (h : dumpRecordStep ctx r = some ctx') (hs : isSampleRec r = false) :
    ctx'.sample_count = ctx.sample_count := by
  cases r with
  | sample s => exact Bool.noConfusion hs
  | lost l =>
    simp only [dumpRecordStep, Option.some.injEq] at h; subst h; rfl
  | file f =>
    simp only [dumpRecordStep] at h
    split at h
    · exact Option.noConfusion h
    · simp only [Option.some.injEq] at h; subst h; rfl
  | thread t =>
    simp only [dumpRecordStep, Option.some.injEq] at h; subst h; rfl
  | metaInfo m =>
    simp only [dumpRecordStep, Option.some.injEq] at h; subst h; rfl

theorem runRecords_fileIds (records : List ProtoRecord) :
    ∀ ctx ctx', runRecords ctx records = some ctx' →
      fileRecordIds records =
        List.range' ctx.files.length (fileRecordIds records).length := by
  induction records with
  | nil => intro ctx ctx' _; simp [fileRecordIds]
  | cons r rest ih =>
    intro ctx ctx' h
    unfold runRecords at h
    cases heq : dumpRecordStep ctx r with
    | none => rw [heq] at h; exact Option.noConfusion h
    | some cm =>
      rw [heq] at h
      cases hr : fileIdOf r with
      | none =>
        have hfiles := dumpRecordStep_nonfile_files ctx cm r heq hr
        have hrest := ih cm ctx' h
        rw [hfiles] at hrest
        simpa [fileRecordIds, List.filterMap_cons, hr] using hrest
      | some i =>
        obtain ⟨f, hf⟩ : ∃ f, r = ProtoRecord.file f := by
          cases r <;> simp_all [fileIdOf]
        subst hf
        obtain ⟨hid, hfiles⟩ := dumpRecordStep_file ctx cm f heq
        have hrest := ih cm ctx' h
        rw [hfiles] at hrest
        simp only [List.length_append, List.length_cons, List.length_nil,
          Nat.zero_add] at hrest
        simp only [fileRecordIds, List.filterMap_cons, fileIdOf] at hrest ⊢
        simp only [List.length_cons]
        rw [List.range'_succ, hid]
        exact congrArg (fun l => ctx.files.length :: l) hrest

theorem runRecords_count_no_samples (records : List ProtoRecord) :
    ∀ ctx ctx', sampleRecordCount records = 0 →
      runRecords ctx records = some ctx' →
      ctx'.sample_count = ctx.sample_count := by
  induction records with
  | nil =>
    intro ctx ctx' _ h
    simp only [runRecords, Option.some.injEq] at h
    subst h; rfl
  | cons r rest ih =>
    intro ctx ctx' hns h
    have hr : isSampleRec r = false := by
      cases hb : isSampleRec r
      · rfl
      · simp [sampleRecordCount, List.filter_cons, hb] at hns
    have hrest : sampleRecordCount rest = 0 := by
      simpa [sampleRecordCount, List.filter_cons, hr] using hns
    unfold runRecords at h
    cases heq : dumpRecordStep ctx r with
    | none => rw [heq] at h; exact Option.noConfusion h
    | some cm =>
      rw [heq] at h
      exact (ih cm ctx' hrest h).trans (dumpRecordStep_count ctx cm r heq hr)

/-! ## Claim theorems about the decoder -/

/-- C10: a callchain entry with symbol id -1 leaves `max_symbol_id_map`
untouched, so its file id is never bounds-checked in the post-pass; a
stream whose out-of-range file id 5 appears only with symbol id -1 is
accepted. -/
theorem C10_unresolved_escapes_check :
    (∀ (ctx : DecCtx) (e : ChainEntryMsg), e.symbol_id = -1 →
        ∃ ctx', chainEntryStep ctx e = some ctx' ∧
          ctx'.max_symbol_id_map = ctx.max_symbol_id_map) ∧
      (dumpProtobufReport c10Stream 0).isSome = true := by
  refine ⟨?_, by decide⟩
  intro ctx e he
  refine ⟨{ ctx with out := ctx.out ++
    [DumpLine.vaddrInFile e.vaddr_in_file, DumpLine.fileId e.file_id,
     DumpLine.symbolId e.symbol_id] }, ?_, rfl⟩
  simp [chainEntryStep, he]

/-- C10, witnessed on a concrete -1 entry. -/
theorem C10_unresolved_escapes_check_witness :
    ∃ ctx', chainEntryStep (initCtx 0)
        { vaddr_in_file := 4096, file_id := 5, symbol_id := -1 } = some ctx' ∧
      ctx'.max_symbol_id_map = (initCtx 0).max_symbol_id_map :=
  C10_unresolved_escapes_check.1 (initCtx 0)
    { vaddr_in_file := 4096, file_id := 5, symbol_id := -1 } (by decide)

/-- C2: a file-table record whose declared id differs from the number of
file-table records already decoded is a fatal error, so any successfully
decoded stream declares file ids exactly 0,1,2,... in record order; a
stream starting with file id 1 is rejected. -/
theorem C2_file_ids_sequential :
    (∀ (ctx : DecCtx) (f : FileMsg), f.id ≠ ctx.files.length →
        dumpRecordStep ctx (ProtoRecord.file f) = none) ∧
      (∀ (records : List ProtoRecord) (sc0 : Nat),
          (dumpProtobufReport records sc0).isSome = true →
          fileRecordIds records = List.range (fileRecordIds records).length) ∧
      dumpProtobufReport c2BadStream 0 = none := by
  refine ⟨?_, ?_, by decide⟩
  · intro ctx f hne
    simp [dumpRecordStep, hne]
  · intro records sc0 h
    unfold dumpProtobufReport at h
    cases heq : decodedCtx records sc0 with
    | none => rw [heq] at h; simp at h
    | some ctx =>
      have hseq := runRecords_fileIds records (initCtx sc0) ctx heq
      simpa [initCtx, List.range_eq_range'] using hseq

/-- C2, witnessed on the two-file stream with ids 0, 1. -/
theorem C2_file_ids_sequential_witness :
    fileRecordIds c2GoodStream = List.range (fileRecordIds c2GoodStream).length :=
  C2_file_ids_sequential.2.1 c2GoodStream 0 (by decide)

/-- C3: when decoding succeeds, every `(fileId, maxSymbolIdReferenced)`
pair the decoder recorded from sample callchains satisfies
`fileId < number of declared files` and
`maxSymbolIdReferenced < that file's declared symbol count`; a stream
referencing a symbol id equal to a file's symbol count is rejected; and
the check runs after the full pass, so a sample referencing a file
declared only later still decodes. -/
theorem C3_symbol_bounds_postpass :
    (∀ (records : List ProtoRecord) (sc0 : Nat) (ctx : DecCtx),
        decodedCtx records sc0 = some ctx →
        (dumpProtobufReport records sc0).isSome = true →
        ∀ fid ms, (fid, ms) ∈ ctx.max_symbol_id_map →
          fid < ctx.files.length ∧ uint32OfInt32 ms < ctx.files.getD fid 0) ∧
      dumpProtobufReport c3RejectStream 0 = none ∧
      (dumpProtobufReport c3ForwardStream 0).isSome = true := by
  refine ⟨?_, by decide, by decide⟩
  intro records sc0 ctx hctx h fid ms hmem
  unfold dumpProtobufReport at h
  rw [hctx] at h
  by_cases hpc : postCheck ctx.max_symbol_id_map ctx.files = true
  · have hall := List.all_eq_true.mp hpc (fid, ms) hmem
    simpa using hall
  · simp [hpc] at h

/-- C3, witnessed on the forward-reference stream. -/
theorem C3_symbol_bounds_postpass_witness :
    (0 : Nat) < ((decodedCtx c3ForwardStream 0).getD (initCtx 0)).files.length ∧
      uint32OfInt32 0 <
        ((decodedCtx c3ForwardStream 0).getD (initCtx 0)).files.getD 0 0 :=
  C3_symbol_bounds_postpass.1 c3ForwardStream 0
    ((decodedCtx c3ForwardStream 0).getD (initCtx 0)) (by decide) (by decide)
    0 0 (by decide)

/-- C4, counterexample: on a valid one-sample stream the second of two
in-process dumps differs from the first, because the sample numbering
comes from a function-local static counter that persists across calls. -/
theorem C4_redump_counterexample :
    (dumpTwiceOutputs c4Stream).map (fun p => decide (p.1 = p.2)) =
      some false := by decide

/-- C4, amended: dumping the same valid stream twice produces byte-identical
text output whenever each dump starts from the same sample-counter state —
in particular always for a stream with no sample records, and always when
each dump runs in a fresh process; two consecutive in-process dumps of a
stream with sample records differ in their sample numbering. -/
theorem C4_redump_amended (records : List ProtoRecord)
    (o1 o2 : List DumpLine) (h : dumpTwiceOutputs records = some (o1, o2))
    (hns : sampleRecordCount records = 0) : o1 = o2 := by
  unfold dumpTwiceOutputs at h
  cases h1 : dumpProtobufReport records 0 with
  | none => rw [h1] at h; exact Option.noConfusion h
  | some p =>
    obtain ⟨o, sc1⟩ := p
    rw [h1] at h
    have hsc : sc1 = 0 := by
      unfold dumpProtobufReport at h1
      cases h2 : decodedCtx records 0 with
      | none => rw [h2] at h1; exact Option.noConfusion h1
      | some ctx =>
        rw [h2] at h1
        by_cases hpc : postCheck ctx.max_symbol_id_map ctx.files = true
        · simp only [hpc, if_true] at h1
          simp only [Option.some.injEq, Prod.mk.injEq] at h1
          obtain ⟨h1a, h1b⟩ := h1
          have hc := runRecords_count_no_samples records (initCtx 0) ctx hns h2
          simp only [initCtx] at hc
          omega
        · simp only [hpc] at h1
          simp at h1
    subst hsc
    simp only [h1, Option.some.injEq, Prod.mk.injEq] at h
    obtain ⟨ha, hb⟩ := h
    rw [← ha, ← hb]

/-- C4, witnessed: two in-process dumps of a sample-free stream agree. -/
theorem C4_redump_amended_witness :
    sampleRecordCount c4NoSampleStream = 0 ∧
      ((dumpTwiceOutputs c4NoSampleStream).getD ([], [])).1 =
        ((dumpTwiceOutputs c4NoSampleStream).getD ([], [])).2 :=
  ⟨by decide, C4_redump_amended c4NoSampleStream _ _ rfl (by decide)⟩

end ReportSample
